import Mathlib

/-!
Verification of the reflective-agent refinement core: the keyword extractor,
the two heuristic scorers and the iterative refinement controller from
`reflective_agent.py`.  Python strings are modelled as Lean `String`, Python
floats as exact rationals (`ℚ`), Python sets of strings as `Finset String`,
and the external generation service as an oracle
`ℕ → String → Option String` (call index and prompt to either a generated
text or a failure).
-/

namespace ReflectiveAgent

/-! ## String helpers mirroring the Python primitives -/

/-- Boolean substring check: does `pat` occur contiguously inside `l`? -/
def isSubstr (pat : List Char) : List Char → Bool
  | [] => pat.isEmpty
  | c :: cs => pat.isPrefixOf (c :: cs) || isSubstr pat cs

/-- Substring containment: `pat` occurs contiguously inside `hay`
(Python's `pat in hay`). -/
def containsSub (hay pat : String) : Prop :=
  isSubstr pat.data hay.data = true

instance (hay pat : String) : Decidable (containsSub hay pat) :=
  inferInstanceAs (Decidable (_ = true))

/-- Python `str.lower()` (ASCII case folding), character by character. -/
def pyLower (s : String) : String :=
  ⟨s.data.map Char.toLower⟩

/-- Python `str.strip(chars)`: remove all leading and trailing characters
belonging to `chars`. -/
def pyStripChars (chars : List Char) (s : String) : String :=
  ⟨((s.data.dropWhile (· ∈ chars)).reverse.dropWhile (· ∈ chars)).reverse⟩

/-- Python `str.strip()` with no argument: remove surrounding whitespace. -/
def pyStripWs (s : String) : String :=
  ⟨((s.data.dropWhile Char.isWhitespace).reverse.dropWhile Char.isWhitespace).reverse⟩

/-- Split a character list at every whitespace character, keeping empty
pieces; `acc` is the current piece accumulated in reverse. -/
def splitWsAux : List Char → List Char → List (List Char)
  | [], acc => [acc.reverse]
  | c :: cs, acc =>
      if c.isWhitespace then acc.reverse :: splitWsAux cs []
      else splitWsAux cs (c :: acc)

/-- Python `str.split()` with no argument: split on whitespace runs,
discarding empty pieces. -/
def pySplitWs (text : String) : List String :=
  ((splitWsAux text.data []).map (fun w => String.mk w)).filter (fun w => w ≠ "")

/-! ## Keyword extractor (`extract_keywords`) -/

/-- The stop-word set of `extract_keywords`. -/
def stop_words : List String :=
  ["the", "a", "an", "and", "or", "but", "in", "on", "at", "to", "for",
   "of", "with", "by", "is", "are", "was", "were", "be", "been", "have",
   "has", "had", "do", "does", "did", "will", "would", "could", "should",
   "may", "might", "can", "this", "that", "these", "those", "i", "you",
   "he", "she", "it", "we", "they", "me", "him", "her", "us", "them"]

/-- The surrounding punctuation stripped from each token
(Python `word.strip('.,!?;:()[]\x7b\x7d"\x27')`). -/
def punct_chars : List Char :=
  ['.', ',', '!', '?', ';', ':', '(', ')', '[', ']', '\x7b', '\x7d', '\x22', '\x27']

/-- Normalisation applied to each token: strip surrounding punctuation,
then lower-case. -/
def normToken (w : String) : String :=
  pyLower (pyStripChars punct_chars w)

/-- `extract_keywords`: split on whitespace, normalise each token, keep it
when its length exceeds 3 and it is not a stop word, collecting into a set. -/
def extract_keywords (text : String) : Finset String :=
  (pySplitWs text).foldl
    (fun keywords w =>
      let w := normToken w
      if 3 < w.length ∧ w ∉ stop_words then insert w keywords else keywords)
    ∅

/-! ## Relevance scorer (`validate_context_maintenance`) -/

/-- `validate_context_maintenance`: keyword-overlap relevance score of a
response against the original prompt. -/
def validate_context_maintenance (original_prompt response : String) : ℚ :=
  let original_keywords := extract_keywords (pyLower original_prompt)
  let response_keywords := extract_keywords (pyLower response)
  if original_keywords = ∅ then 1
  else
    let common_keywords := original_keywords ∩ response_keywords
    let relevance_score : ℚ := (common_keywords.card : ℚ) / (original_keywords.card : ℚ)
    min (relevance_score * (3 / 2)) 1

/-! ## Quality scorer (`validate_content_quality`) -/

/-- The fixed list of meta-commentary ("off-topic") phrases. -/
def off_topic_phrases : List String :=
  ["feedback", "suggestion", "improve the document", "revise the",
   "thank you for the feedback", "this response is excellent",
   "minor suggestions", "why this revised response"]

/-- Number of phrases of `off_topic_phrases` occurring (case-insensitively)
in `response`. -/
def matchCount (response : String) : ℕ :=
  off_topic_phrases.countP (fun phrase => isSubstr phrase.data (pyLower response).data)

/-- `validate_content_quality`: floor at 0 for short content, penalise each
matched meta-commentary phrase by 3/10. -/
def validate_content_quality (response : String) : ℚ :=
  if response = "" ∨ (pyStripWs response).length < 50 then 0
  else
    let off_topic_count := matchCount response
    if 0 < off_topic_count then max 0 (1 - (off_topic_count : ℚ) * (3 / 10))
    else 1

/-! ## Spec-side restatements of the scorers (for the refinement claims) -/

/-- Spec wording of the keyword extractor: the set of normalised whitespace
tokens whose length exceeds 3 and which are not stop words. -/
def extractKeywordsSpec (text : String) : Finset String :=
  (((pySplitWs text).map normToken).filter
    (fun w => 3 < w.length ∧ w ∉ stop_words)).toFinset

/-- Spec wording of the relevance scorer: 1 when the original keyword set is
empty, otherwise `min 1 (1.5 × |intersection| / |originalKeywords|)`. -/
def scoreRelevanceSpec (originalPrompt candidate : String) : ℚ :=
  let ok := extract_keywords (pyLower originalPrompt)
  let ck := extract_keywords (pyLower candidate)
  if ok = ∅ then 1
  else min 1 ((3 / 2) * ((ok ∩ ck).card : ℚ) / (ok.card : ℚ))

/-- Spec wording of the quality scorer: 0 below the 50-character floor, 1 on
zero matches, `max 0 (1 − 0.3 × matchCount)` otherwise. -/
def scoreQualitySpec (candidate : String) : ℚ :=
  if (pyStripWs candidate).length < 50 then 0
  else if matchCount candidate = 0 then 1
  else max 0 (1 - (3 / 10) * (matchCount candidate : ℚ))

/-! ## Refinement controller (`improved_multi_step_reflection`)

The external generation service is an oracle `gen : ℕ → String → Option String`
taking the index of the call (0-based, counted across the whole run) and the
prompt sent, returning `some text` on success and `none` when the service
raises an error. -/

/-- The per-round reflection prompt built by the controller, embedding the
immutable original prompt and the current running response. -/
def enhanced_reflection_prompt (prompt current_response : String) : String :=
  "\nIMPORTANT: You are improving a response about the following topic. STAY ON TOPIC and maintain context.\n\nORIGINAL TOPIC: "
    ++ prompt
    ++ "\n\nCURRENT RESPONSE TO IMPROVE:\n"
    ++ current_response
    ++ "\n\nTASK: Improve this response while:\n1. MAINTAINING the original topic and context\n2. ENHANCING clarity, structure, and usefulness\n3. ADDING relevant examples and practical details\n4. KEEPING the response focused and well-organized\n\nDO NOT:\n- Change the subject matter\n- Start analyzing feedback about improving documents\n- Go off-topic\n- Lose the original context\n\nProvide ONLY the improved response content, not analysis or feedback.\n"

/-- The stricter prompt used for the single recovery attempt of a round. -/
def recovery_prompt (prompt current_response : String) : String :=
  "\nThe previous improvement went off-topic. Please provide a focused improvement of this response:\n\nORIGINAL TOPIC: "
    ++ prompt
    ++ "\nCURRENT RESPONSE: "
    ++ current_response
    ++ "\n\nIMPROVE this response while staying strictly on the topic of "
    ++ prompt
    ++ ".\nFocus on enhancing clarity, adding examples, and improving structure.\n"

/-- Outcome of one completed refinement round (`step_result` dict). -/
structure StepResult where
  step_number : ℕ
  input_length : ℕ
  output_length : ℕ
  context_score : ℚ
  content_score : ℚ
  input_content : String
  output_content : String
  validation_passed : Bool
deriving DecidableEq

/-- The result dictionary of one controller invocation (`results` dict). -/
structure RefinementRun where
  original_prompt : String
  steps : List StepResult
  final_response : String
  context_maintained : Bool
  validation_passed : Bool
  total_iterations : ℕ
deriving DecidableEq

/-- The `StepResult` recorded for a round: `step_number` is the 1-based round
index, `output` the (possibly recovered) candidate with its two scores, and
`validation_passed` compares the final scores against the 0.7/0.6 thresholds. -/
def mkStepResult (step_num : ℕ) (input output : String)
    (context_score content_score : ℚ) : StepResult :=
  { step_number := step_num
    input_length := input.length
    output_length := output.length
    context_score := context_score
    content_score := content_score
    input_content := input
    output_content := output
    validation_passed := decide (7 / 10 ≤ context_score ∧ 6 / 10 ≤ content_score) }

/-- The `for step_num in range(1, steps + 1)` loop of
`improved_multi_step_reflection`.  Arguments: `remaining` loop indices still
to run, the current `step_num`, the running response, the executed-iteration
counter, the number of generation calls already made, and the accumulated
step results.  Returns the final accumulated steps, running response and
iteration counter.  A `none` from the oracle models the service raising: the
`except` handler breaks out of the loop, discarding the whole round. -/
def stepLoop (gen : ℕ → String → Option String) (prompt : String) (max_iterations : ℕ) :
    ℕ → ℕ → String → ℕ → ℕ → List StepResult → List StepResult × String × ℕ
  | 0, _, current_response, iteration_count, _, acc => (acc, current_response, iteration_count)
  | remaining + 1, step_num, current_response, iteration_count, call_count, acc =>
    match gen call_count (enhanced_reflection_prompt prompt current_response) with
    | none => (acc, current_response, iteration_count)
    | some improved_response =>
      let context_score := validate_context_maintenance prompt improved_response
      let content_score := validate_content_quality improved_response
      if context_score < 7 / 10 ∨ content_score < 6 / 10 then
        match gen (call_count + 1) (recovery_prompt prompt current_response) with
        | none => (acc, current_response, iteration_count)
        | some recovered_response =>
          let context_score2 := validate_context_maintenance prompt recovered_response
          let content_score2 := validate_content_quality recovered_response
          let acc2 := acc ++ [mkStepResult step_num current_response recovered_response
            context_score2 content_score2]
          if max_iterations ≤ iteration_count + 1 then
            (acc2, recovered_response, iteration_count + 1)
          else
            stepLoop gen prompt max_iterations remaining (step_num + 1) recovered_response
              (iteration_count + 1) (call_count + 2) acc2
      else
        let acc2 := acc ++ [mkStepResult step_num current_response improved_response
          context_score content_score]
        if max_iterations ≤ iteration_count + 1 then
          (acc2, improved_response, iteration_count + 1)
        else
          stepLoop gen prompt max_iterations remaining (step_num + 1) improved_response
            (iteration_count + 1) (call_count + 1) acc2

/-- `improved_multi_step_reflection`: run up to `steps` refinement rounds
(bounded by `max_iterations`) against the generation oracle `gen`, building
the final results record. -/
def improved_multi_step_reflection (gen : ℕ → String → Option String)
    (prompt : String) (steps : ℕ) (max_iterations : ℕ) : RefinementRun :=
  let r := stepLoop gen prompt max_iterations steps 1 prompt 0 0 []
  { original_prompt := prompt
    steps := r.1
    final_response := r.2.1
    context_maintained := r.1.all (fun s => s.validation_passed)
    validation_passed := r.1.all (fun s => s.validation_passed)
    total_iterations := r.2.2 }

/-! ## Concrete instances used in witnesses and counterexamples -/

/-- The output text of the last accumulated step, defaulting to `d` when no
step has been recorded. -/
def lastOut (acc : List StepResult) (d : String) : String :=
  acc.getLast?.elim d (fun s => s.output_content)

/-- A 72-character candidate containing "thank you for the feedback" and no
other meta-commentary phrase beyond the nested "feedback". -/
def c1_cand : String :=
  "Thank you for the feedback on the machine learning essay today, friend."

/-- A second such candidate (62 characters). -/
def c1_cand2 : String :=
  "thank you for the feedback regarding machine learning homework"

/-- A generation service that fails on every call. -/
def genNone : ℕ → String → Option String :=
  fun _ _ => none

/-- A generation service that succeeds on every call with a fixed text. -/
def genAlways : ℕ → String → Option String :=
  fun _ _ => some "ok"

/-- A generation service whose first call yields a low-quality candidate and
whose later calls yield a different text: it forces one recovery. -/
def genRecover : ℕ → String → Option String :=
  fun n _ => if n = 0 then some "alpha" else some "beta"

/-- A generation service whose first call yields a low-quality candidate and
whose later calls fail: it makes the recovery attempt raise. -/
def genRecoverFail : ℕ → String → Option String :=
  fun n _ => if n = 0 then some "tiny" else none

/-! ## General lemmas -/

/-- The boolean substring check agrees with `List.IsInfix`. -/
theorem isSubstr_correct (pat l : List Char) : isSubstr pat l = true ↔ pat <:+: l := by
  induction l with
  | nil => simp [isSubstr, List.isEmpty_iff]
  | cons c cs ih =>
      simp [isSubstr, List.infix_cons_iff, ih, List.isPrefixOf_iff_prefix]

/-- `max 0 q` evaluates to `q` on nonnegative rationals. -/
theorem max_zero_of_nonneg (q : ℚ) (h : 0 ≤ q) : max 0 q = q := max_eq_right h

/-- Folding the keep-or-skip insertion over a token list accumulates exactly
the set of kept normalised tokens. -/
theorem keywords_foldl (l : List String) (acc : Finset String) :
    l.foldl
      (fun keywords w =>
        let w := normToken w
        if 3 < w.length ∧ w ∉ stop_words then insert w keywords else keywords)
      acc
      = acc ∪ ((l.map normToken).filter (fun w => 3 < w.length ∧ w ∉ stop_words)).toFinset := by
  induction l generalizing acc with
  | nil => simp
  | cons w l ih =>
      simp only [List.foldl_cons, List.map_cons, List.filter_cons]
      by_cases h : 3 < (normToken w).length ∧ (normToken w) ∉ stop_words
      · simp [h, ih, Finset.insert_union, Finset.union_insert]
      · simp [h, ih]

/-- Appending a step makes it the last output. -/
theorem lastOut_concat (acc : List StepResult) (d : String) (s : StepResult) :
    lastOut (acc ++ [s]) d = s.output_content := by
  simp [lastOut, List.getLast?_concat]

/-- A candidate of substantial length matching exactly two meta-commentary
phrases scores exactly 2/5. -/
theorem quality_of_two_matches (s : String) (hlen : 50 ≤ (pyStripWs s).length)
    (h2 : matchCount s = 2) : validate_content_quality s = 2 / 5 := by
  have he : s ≠ "" := by
    intro h
    subst h
    exact absurd hlen (by decide)
  have : validate_content_quality s = max 0 (1 - ((2 : ℕ) : ℚ) * (3 / 10)) := by
    simp [validate_content_quality, he, h2, Nat.lt_irrefl, Nat.not_lt.mpr hlen]
  rw [this]
  rw [show (1 : ℚ) - ((2 : ℕ) : ℚ) * (3 / 10) = 2 / 5 by norm_num]
  exact max_zero_of_nonneg _ (by norm_num)

/-- A failing generate call returns the accumulated state unchanged. -/
theorem stepLoop_gen_fail (gen : ℕ → String → Option String) (prompt : String)
    (m remaining step_num : ℕ) (cur : String) (ic cc : ℕ) (acc : List StepResult)
    (h : gen cc (enhanced_reflection_prompt prompt cur) = none) :
    stepLoop gen prompt m (remaining + 1) step_num cur ic cc acc = (acc, cur, ic) := by
  simp [stepLoop, h]

/-- A failing recovery call returns the accumulated state unchanged. -/
theorem stepLoop_recovery_fail (gen : ℕ → String → Option String) (prompt : String)
    (m remaining step_num : ℕ) (cur : String) (ic cc : ℕ) (acc : List StepResult)
    (t : String)
    (hg : gen cc (enhanced_reflection_prompt prompt cur) = some t)
    (hv : validate_context_maintenance prompt t < 7 / 10 ∨ validate_content_quality t < 6 / 10)
    (hr : gen (cc + 1) (recovery_prompt prompt cur) = none) :
    stepLoop gen prompt m (remaining + 1) step_num cur ic cc acc = (acc, cur, ic) := by
  simp [stepLoop, hg, hv, hr]

/-- The loop preserves the pairing between appended steps and counted
iterations. -/
theorem stepLoop_length (gen : ℕ → String → Option String) (prompt : String) (m : ℕ) :
    ∀ remaining step_num cur ic cc acc, acc.length = ic →
      ((stepLoop gen prompt m remaining step_num cur ic cc acc).1).length
        = (stepLoop gen prompt m remaining step_num cur ic cc acc).2.2 := by
  intro remaining
  induction remaining with
  | zero => intro step_num cur ic cc acc h; simpa [stepLoop] using h
  | succ r ih =>
      intro step_num cur ic cc acc h
      rw [stepLoop]
      cases hg : gen cc (enhanced_reflection_prompt prompt cur) with
      | none => simpa using h
      | some t =>
          simp only
          by_cases hv : validate_context_maintenance prompt t < 7 / 10
              ∨ validate_content_quality t < 6 / 10
          · rw [if_pos hv]
            cases hr : gen (cc + 1) (recovery_prompt prompt cur) with
            | none => simpa using h
            | some u =>
                simp only
                by_cases hstop : m ≤ ic + 1
                · simp [if_pos hstop, h]
                · rw [if_neg hstop]
                  exact ih _ _ _ _ _ (by simp [h])
          · rw [if_neg hv]
            by_cases hstop : m ≤ ic + 1
            · simp [if_pos hstop, h]
            · rw [if_neg hstop]
              exact ih _ _ _ _ _ (by simp [h])

/-- The loop keeps the running response equal to the output of the last
accumulated step (or the default seed when no step exists). -/
theorem stepLoop_lastOut (gen : ℕ → String → Option String) (prompt d : String) (m : ℕ) :
    ∀ remaining step_num cur ic cc acc, cur = lastOut acc d →
      (stepLoop gen prompt m remaining step_num cur ic cc acc).2.1
        = lastOut (stepLoop gen prompt m remaining step_num cur ic cc acc).1 d := by
  intro remaining
  induction remaining with
  | zero => intro step_num cur ic cc acc h; simpa [stepLoop] using h
  | succ r ih =>
      intro step_num cur ic cc acc h
      rw [stepLoop]
      cases hg : gen cc (enhanced_reflection_prompt prompt cur) with
      | none => simpa using h
      | some t =>
          simp only
          by_cases hv : validate_context_maintenance prompt t < 7 / 10
              ∨ validate_content_quality t < 6 / 10
          · rw [if_pos hv]
            cases hr : gen (cc + 1) (recovery_prompt prompt cur) with
            | none => simpa using h
            | some u =>
                simp only
                by_cases hstop : m ≤ ic + 1
                · simp [if_pos hstop, lastOut_concat, mkStepResult]
                · rw [if_neg hstop]
                  exact ih _ _ _ _ _ (by simp [lastOut_concat, mkStepResult])
          · rw [if_neg hv]
            by_cases hstop : m ≤ ic + 1
            · simp [if_pos hstop, lastOut_concat, mkStepResult]
            · rw [if_neg hstop]
              exact ih _ _ _ _ _ (by simp [lastOut_concat, mkStepResult])

/-- Under an always-succeeding service, the loop executes until the step
budget or the iteration ceiling is exhausted, whichever comes first. -/
theorem stepLoop_iters (gen : ℕ → String → Option String) (prompt : String) (m : ℕ)
    (hgen : ∀ n p, (gen n p).isSome) :
    ∀ remaining step_num cur ic cc acc, ic < m →
      (stepLoop gen prompt m remaining step_num cur ic cc acc).2.2
        = min (ic + remaining) m := by
  intro remaining
  induction remaining with
  | zero =>
      intro step_num cur ic cc acc h
      simp [stepLoop, Nat.min_eq_left (Nat.le_of_lt h)]
  | succ r ih =>
      intro step_num cur ic cc acc h
      rw [stepLoop]
      obtain ⟨t, hg⟩ := Option.isSome_iff_exists.mp (hgen cc (enhanced_reflection_prompt prompt cur))
      rw [hg]
      simp only
      by_cases hv : validate_context_maintenance prompt t < 7 / 10
          ∨ validate_content_quality t < 6 / 10
      · rw [if_pos hv]
        obtain ⟨u, hr⟩ := Option.isSome_iff_exists.mp (hgen (cc + 1) (recovery_prompt prompt cur))
        rw [hr]
        simp only
        by_cases hstop : m ≤ ic + 1
        · rw [if_pos hstop]
          have : m = ic + 1 := Nat.le_antisymm hstop h
          simp [this]
        · rw [if_neg hstop]
          rw [ih _ _ _ _ _ (by omega)]
          omega
      · rw [if_neg hv]
        by_cases hstop : m ≤ ic + 1
        · rw [if_pos hstop]
          have : m = ic + 1 := Nat.le_antisymm hstop h
          simp [this]
        · rw [if_neg hstop]
          rw [ih _ _ _ _ _ (by omega)]
          omega

/-! ## Claim theorems -/

/-- Claim C7: `validate_context_maintenance` returns 1 when the keyword set of
the lower-cased original prompt is empty, and otherwise
`min 1 (1.5 × |intersection| / |originalKeywords|)`; the result always lies in
`[0, 1]`.  (Determinism and absence of side effects hold by construction: the
embedding is a pure function.) -/
theorem claim_C7 (op c : String) :
    validate_context_maintenance op c = scoreRelevanceSpec op c
    ∧ (extract_keywords (pyLower op) = ∅ → validate_context_maintenance op c = 1)
    ∧ 0 ≤ validate_context_maintenance op c ∧ validate_context_maintenance op c ≤ 1 := by
  by_cases h : extract_keywords (pyLower op) = ∅
  · simp [validate_context_maintenance, scoreRelevanceSpec, h]
  · refine ⟨?_, fun h1 => absurd h1 h, ?_, ?_⟩
    · simp only [validate_context_maintenance, scoreRelevanceSpec, if_neg h]
      rw [min_comm]
      ring_nf
    · simp only [validate_context_maintenance, if_neg h]
      have : (0 : ℚ) ≤ ((extract_keywords (pyLower op) ∩ extract_keywords (pyLower c)).card : ℚ)
          / (extract_keywords (pyLower op)).card * (3 / 2) := by positivity
      exact le_min this (by norm_num)
    · simp only [validate_context_maintenance, if_neg h]
      exact min_le_right _ _

/-- Witness for C7 at a concrete input: a prompt made of stop words has an
empty keyword set, so the score is 1. -/
theorem claim_C7_witness : validate_context_maintenance "to do" "banana" = 1 :=
  (claim_C7 "to do" "banana").2.1 (by decide)

/-- Claim C8: `validate_content_quality` returns 0 when the trimmed candidate
is empty or shorter than 50 characters, 1 when no meta-commentary phrase
matches, `max 0 (1 − 0.3 × matchCount)` otherwise; the result is never
negative and any candidate matching 4 or more phrases scores exactly 0. -/
theorem claim_C8 (c : String) :
    validate_content_quality c = scoreQualitySpec c
    ∧ ((pyStripWs c).length < 50 → validate_content_quality c = 0)
    ∧ (50 ≤ (pyStripWs c).length → matchCount c = 0 → validate_content_quality c = 1)
    ∧ 0 ≤ validate_content_quality c
    ∧ (4 ≤ matchCount c → validate_content_quality c = 0) := by
  by_cases he : c = ""
  · subst he
    refine ⟨by simp [validate_content_quality, scoreQualitySpec, pyStripWs],
      fun _ => by simp [validate_content_quality], fun h => ?_,
      by simp [validate_content_quality], fun _ => by simp [validate_content_quality]⟩
    · exact absurd h (by decide)
  · by_cases hl : (pyStripWs c).length < 50
    · refine ⟨by simp [validate_content_quality, scoreQualitySpec, he, hl],
        fun _ => by simp [validate_content_quality, he, hl],
        fun h => absurd hl (by omega),
        by simp [validate_content_quality, he, hl],
        fun _ => by simp [validate_content_quality, he, hl]⟩
    · rcases Nat.eq_zero_or_pos (matchCount c) with h0 | hpos
      · refine ⟨?_, fun h => absurd h hl, fun _ _ => ?_, ?_, fun h4 => by omega⟩
        · simp [validate_content_quality, scoreQualitySpec, he, hl, h0]
        · simp [validate_content_quality, he, hl, h0]
        · simp [validate_content_quality, he, hl, h0]
      · have hne : matchCount c ≠ 0 := Nat.pos_iff_ne_zero.mp hpos
        have hval : validate_content_quality c = max 0 (1 - (matchCount c : ℚ) * (3 / 10)) := by
          simp [validate_content_quality, he, hl, hpos]
        refine ⟨?_, fun h => absurd h hl, fun _ h0 => absurd h0 hne, ?_, fun h4 => ?_⟩
        · simp only [validate_content_quality, scoreQualitySpec, he, hl, if_neg, if_pos hpos,
            or_self, ite_false, hne, if_false]
          ring_nf
        · rw [hval]; exact le_max_left _ _
        · rw [hval]
          have h4' : (4 : ℚ) ≤ (matchCount c : ℚ) := by exact_mod_cast h4
          have : (1 : ℚ) - (matchCount c : ℚ) * (3 / 10) ≤ 0 := by linarith
          exact max_eq_left this

/-- Witness for C8 at a concrete input: a candidate shorter than 50
characters scores 0. -/
theorem claim_C8_witness : validate_content_quality "short" = 0 :=
  (claim_C8 "short").2.1 (by decide)

/-- Claim C9: `extract_keywords` equals its spec description (split on
whitespace, strip the fixed punctuation and lower-case each token, keep
tokens of length strictly greater than 3 that are not stop words, collect as
a set), and the empty string yields the empty set.  Totality (no input
raises) holds by construction. -/
theorem claim_C9 (t : String) :
    extract_keywords t = extractKeywordsSpec t ∧ extract_keywords "" = ∅ := by
  constructor
  · rw [extract_keywords, extractKeywordsSpec, keywords_foldl, Finset.empty_union]
  · decide

/-- Claim C1 counterexample: a 72-character candidate containing
"thank you for the feedback" (case-insensitively) on which
`validate_content_quality` does not return 7/10 — the nested phrase
"feedback" also matches, so two phrases are penalised. -/
theorem claim_C1_counterexample :
    50 ≤ (pyStripWs c1_cand).length
    ∧ containsSub (pyLower c1_cand) "thank you for the feedback"
    ∧ validate_content_quality c1_cand ≠ 7 / 10 := by
  refine ⟨by decide, by decide, ?_⟩
  rw [quality_of_two_matches c1_cand (by decide) (by decide)]
  norm_num

/-- Claim C1 (amended): a candidate of trimmed length at least 50 containing
"thank you for the feedback" (case-insensitively) matches at least two
phrases of the fixed list (the phrase itself and the nested "feedback"), so
`validate_content_quality` returns at most 2/5, and exactly 2/5 when no
further phrase matches. -/
theorem claim_C1_amended (s : String) (hlen : 50 ≤ (pyStripWs s).length)
    (hsub : containsSub (pyLower s) "thank you for the feedback") :
    2 ≤ matchCount s
    ∧ validate_content_quality s ≤ 2 / 5
    ∧ (matchCount s = 2 → validate_content_quality s = 2 / 5) := by
  have hfb : containsSub (pyLower s) "feedback" := by
    have h1 : ("feedback".data : List Char) <:+: "thank you for the feedback".data := by
      rw [← isSubstr_correct]
      decide
    exact (isSubstr_correct _ _).mpr (h1.trans ((isSubstr_correct _ _).mp hsub))
  have hcount : 2 ≤ matchCount s := by
    have e1 : isSubstr "feedback".data (pyLower s).data = true := hfb
    have e2 : isSubstr "thank you for the feedback".data (pyLower s).data = true := hsub
    simp only [matchCount, off_topic_phrases, List.countP_cons, List.countP_nil, e1, e2]
    simp only [if_true]
    split_ifs <;> omega
  refine ⟨hcount, ?_, quality_of_two_matches s hlen⟩
  have he : s ≠ "" := by
    intro h
    subst h
    exact absurd hlen (by decide)
  have hpos : 0 < matchCount s := by omega
  have hval : validate_content_quality s = max 0 (1 - (matchCount s : ℚ) * (3 / 10)) := by
    simp [validate_content_quality, he, hpos, Nat.not_lt.mpr hlen]
  rw [hval]
  have hc : (2 : ℚ) ≤ (matchCount s : ℚ) := by exact_mod_cast hcount
  exact max_le (by norm_num) (by linarith)

/-- Witness for the amended C1 at a concrete input: a second qualifying
candidate scores exactly 2/5. -/
theorem claim_C1_amended_witness : validate_content_quality c1_cand2 = 2 / 5 :=
  (claim_C1_amended c1_cand2 (by decide) (by decide)).2.2 (by decide)

/-- Claim C2: a failing generate call aborts the loop.  If the very first
call fails, the run has zero iterations, no steps and the original prompt
as final response; in general, a failing generate call in any round returns
the state accumulated by the preceding rounds unchanged, appending no
`StepResult`. -/
theorem claim_C2 :
    (∀ (gen : ℕ → String → Option String) (prompt : String) (steps m : ℕ),
        1 ≤ steps →
        gen 0 (enhanced_reflection_prompt prompt prompt) = none →
        (improved_multi_step_reflection gen prompt steps m).total_iterations = 0
          ∧ (improved_multi_step_reflection gen prompt steps m).steps = []
          ∧ (improved_multi_step_reflection gen prompt steps m).final_response = prompt)
    ∧ (∀ (gen : ℕ → String → Option String) (prompt : String)
        (m remaining step_num : ℕ) (cur : String) (ic cc : ℕ) (acc : List StepResult),
        gen cc (enhanced_reflection_prompt prompt cur) = none →
        stepLoop gen prompt m (remaining + 1) step_num cur ic cc acc = (acc, cur, ic)) := by
  constructor
  · intro gen prompt steps m hs h
    obtain ⟨r, rfl⟩ : ∃ r, steps = r + 1 := ⟨steps - 1, by omega⟩
    simp only [improved_multi_step_reflection, stepLoop_gen_fail gen prompt m r 1 prompt 0 0 [] h]
    exact ⟨trivial, trivial, trivial⟩
  · exact stepLoop_gen_fail

/-- Witness for C2 at a concrete input: the always-failing service yields the
empty run. -/
theorem claim_C2_witness :
    (improved_multi_step_reflection genNone "alpha beta" 3 5).total_iterations = 0
      ∧ (improved_multi_step_reflection genNone "alpha beta" 3 5).steps = []
      ∧ (improved_multi_step_reflection genNone "alpha beta" 3 5).final_response = "alpha beta" :=
  claim_C2.1 genNone "alpha beta" 3 5 (by omega) rfl

/-- Claim C3: under an always-succeeding service, with `steps ≥ 1` and
`max_iterations ≥ 1`, the controller executes exactly
`min steps max_iterations` rounds. -/
theorem claim_C3 (gen : ℕ → String → Option String) (prompt : String) (steps m : ℕ)
    (hgen : ∀ n p, (gen n p).isSome) (_hs : 1 ≤ steps) (hm : 1 ≤ m) :
    (improved_multi_step_reflection gen prompt steps m).total_iterations = min steps m := by
  have h := stepLoop_iters gen prompt m hgen steps 1 prompt 0 0 [] (by omega)
  simpa [improved_multi_step_reflection] using h

/-- Witness for C3 at a concrete input: `steps = 5`, `max_iterations = 2`
gives exactly 2 executed rounds. -/
theorem claim_C3_witness :
    (improved_multi_step_reflection genAlways "p" 5 2).total_iterations = 2 := by
  have h := claim_C3 genAlways "p" 5 2 (fun _ _ => rfl) (by omega) (by omega)
  simpa using h

/-- Claim C4: within a round whose first candidate fails a threshold, exactly
one further generation call is made (the recovery call at index
`call_count + 1`; the continuation resumes at `call_count + 2`), both scores
are recomputed on the recovered output, and the round always proceeds to
Accept: the `StepResult` — with `validation_passed` computed from the
post-recovery scores — is appended and the running response becomes the
recovered output, whether or not the recomputed scores pass. -/
theorem claim_C4 (gen : ℕ → String → Option String) (prompt : String)
    (m remaining step_num : ℕ) (cur : String) (ic cc : ℕ) (acc : List StepResult)
    (t u : String)
    (hg : gen cc (enhanced_reflection_prompt prompt cur) = some t)
    (hv : validate_context_maintenance prompt t < 7 / 10 ∨ validate_content_quality t < 6 / 10)
    (hr : gen (cc + 1) (recovery_prompt prompt cur) = some u) :
    stepLoop gen prompt m (remaining + 1) step_num cur ic cc acc
      = (if m ≤ ic + 1 then
          (acc ++ [mkStepResult step_num cur u (validate_context_maintenance prompt u)
            (validate_content_quality u)], u, ic + 1)
        else
          stepLoop gen prompt m remaining (step_num + 1) u (ic + 1) (cc + 2)
            (acc ++ [mkStepResult step_num cur u (validate_context_maintenance prompt u)
              (validate_content_quality u)])) := by
  rw [stepLoop, hg]
  simp only [if_pos hv, hr]

/-- Witness for C4 at a concrete input: the first candidate "alpha" fails the
quality threshold, the recovery output "beta" is accepted with its own
scores even though it fails validation too. -/
theorem claim_C4_witness :
    stepLoop genRecover "p" 1 1 1 "p" 0 0 []
      = ([mkStepResult 1 "p" "beta" 1 0], "beta", 1) := by
  have hc : validate_context_maintenance "p" "beta" = 1 := by decide
  have hq : validate_content_quality "beta" = 0 := by decide
  have ha : validate_content_quality "alpha" = 0 := by decide
  have h := claim_C4 genRecover "p" 1 0 1 "p" 0 0 [] "alpha" "beta" rfl
    (Or.inr (by rw [ha]; norm_num)) rfl
  rw [h, hc, hq, if_pos (by omega)]
  simp

/-- Claim C5: for every run returned by the controller, the number of
recorded steps equals `total_iterations` — each appended `StepResult` is
paired with exactly one counter increment, and an aborted round contributes
neither. -/
theorem claim_C5 (gen : ℕ → String → Option String) (prompt : String) (steps m : ℕ) :
    ((improved_multi_step_reflection gen prompt steps m).steps).length
      = (improved_multi_step_reflection gen prompt steps m).total_iterations :=
  stepLoop_length gen prompt m steps 1 prompt 0 0 [] rfl

/-- Claim C6: `context_maintained` is the conjunction of `validation_passed`
over the recorded steps (vacuously true on no steps), the run-level
`validation_passed` equals `context_maintained`, and `final_response` is the
original prompt when no round completed and the output of the last recorded
step otherwise. -/
theorem claim_C6 (gen : ℕ → String → Option String) (prompt : String) (steps m : ℕ) :
    ((improved_multi_step_reflection gen prompt steps m).context_maintained = true
        ↔ ∀ s ∈ (improved_multi_step_reflection gen prompt steps m).steps,
            s.validation_passed = true)
    ∧ (improved_multi_step_reflection gen prompt steps m).validation_passed
        = (improved_multi_step_reflection gen prompt steps m).context_maintained
    ∧ ((improved_multi_step_reflection gen prompt steps m).steps = [] →
        (improved_multi_step_reflection gen prompt steps m).final_response = prompt)
    ∧ (∀ (l : List StepResult) (s : StepResult),
        (improved_multi_step_reflection gen prompt steps m).steps = l ++ [s] →
        (improved_multi_step_reflection gen prompt steps m).final_response
          = s.output_content) := by
  have hlo := stepLoop_lastOut gen prompt prompt m steps 1 prompt 0 0 [] (by simp [lastOut])
  refine ⟨List.all_eq_true, rfl, ?_, ?_⟩
  · intro h
    show (stepLoop gen prompt m steps 1 prompt 0 0 []).2.1 = prompt
    rw [hlo]
    have h' : (stepLoop gen prompt m steps 1 prompt 0 0 []).1 = [] := h
    rw [h']
    simp [lastOut]
  · intro l s h
    show (stepLoop gen prompt m steps 1 prompt 0 0 []).2.1 = s.output_content
    rw [hlo]
    have h' : (stepLoop gen prompt m steps 1 prompt 0 0 []).1 = l ++ [s] := h
    rw [h']
    exact lastOut_concat l prompt s

/-- Witness for C6 at a concrete input: with no completed round, the final
response is the original prompt. -/
theorem claim_C6_witness :
    (improved_multi_step_reflection genNone "gamma" 2 4).final_response = "gamma" :=
  (claim_C6 genNone "gamma" 2 4).2.2.1 rfl

/-- Claim C10: a failing recovery call aborts the whole loop exactly like a
failing generate call: the round appends no `StepResult`, the iteration
counter is not incremented, and the running response stays at the previous
round's output, which the controller returns as `final_response`. -/
theorem claim_C10 :
    (∀ (gen : ℕ → String → Option String) (prompt : String)
        (m remaining step_num : ℕ) (cur : String) (ic cc : ℕ) (acc : List StepResult)
        (t : String),
        gen cc (enhanced_reflection_prompt prompt cur) = some t →
        (validate_context_maintenance prompt t < 7 / 10
          ∨ validate_content_quality t < 6 / 10) →
        gen (cc + 1) (recovery_prompt prompt cur) = none →
        stepLoop gen prompt m (remaining + 1) step_num cur ic cc acc = (acc, cur, ic))
    ∧ (∀ (gen : ℕ → String → Option String) (prompt : String) (steps m : ℕ) (t : String),
        1 ≤ steps →
        gen 0 (enhanced_reflection_prompt prompt prompt) = some t →
        (validate_context_maintenance prompt t < 7 / 10
          ∨ validate_content_quality t < 6 / 10) →
        gen 1 (recovery_prompt prompt prompt) = none →
        (improved_multi_step_reflection gen prompt steps m).total_iterations = 0
          ∧ (improved_multi_step_reflection gen prompt steps m).steps = []
          ∧ (improved_multi_step_reflection gen prompt steps m).final_response = prompt) := by
  constructor
  · intro gen prompt m remaining step_num cur ic cc acc t hg hv hr
    exact stepLoop_recovery_fail gen prompt m remaining step_num cur ic cc acc t hg hv hr
  · intro gen prompt steps m t hs hg hv hr
    obtain ⟨r, rfl⟩ : ∃ r, steps = r + 1 := ⟨steps - 1, by omega⟩
    simp only [improved_multi_step_reflection,
      stepLoop_recovery_fail gen prompt m r 1 prompt 0 0 [] t hg hv hr]
    exact ⟨trivial, trivial, trivial⟩

/-- Witness for C10 at a concrete input: first call returns a low-quality
candidate, the recovery call fails, and the run comes back empty with the
prompt as final response. -/
theorem claim_C10_witness :
    (improved_multi_step_reflection genRecoverFail "delta" 3 5).total_iterations = 0
      ∧ (improved_multi_step_reflection genRecoverFail "delta" 3 5).steps = []
      ∧ (improved_multi_step_reflection genRecoverFail "delta" 3 5).final_response = "delta" :=
  claim_C10.2 genRecoverFail "delta" 3 5 "tiny" (by omega) rfl
    (Or.inr (by rw [show validate_content_quality "tiny" = 0 from by decide]; norm_num)) rfl

end ReflectiveAgent
